import Mathlib

/-!
Shallow embedding of src/BackendSQL_Program.py.

The program ingests JSON benchmark-result files from a directory,
extracts nested metrics into flat rows and loads them into per-benchmark
tables in a relational store, using a parsed_files table (the Ledger) to
skip files already ingested.

Modelling conventions:
- a parsed JSON document is a ResultDocument with the four top-level
  fields the code reads unconditionally (title, results, systems,
  last_modified); entry-level fields that the code may find absent
  (app_version, identifier, the per-system nested result object, the
  systems mapping, the hardware/software sub-fields) are modelled as
  Option or association lists so lookups can fail;
- Python dicts become association lists with first-match lookup;
- Python exceptions (KeyError, IndexError, json.JSONDecodeError) become
  an explicit PyError value threaded with Except;
- the database cursor state is a DB record: the parsed_files ledger and
  the per-test tables; COMMIT points of the script are modelled in
  runPipeline, so that changes rolled back when an exception escapes
  main are discarded exactly as psycopg2 discards an uncommitted
  transaction on close.
-/

namespace BackendSQL

/-- A JSON scalar as stored in the value slot of a nested result. -/
inductive JVal where
  | str (s : String)
  | num (n : Int)
deriving DecidableEq

/-- Python dict modelled as an association list; first-match lookup. -/
def alookup {α : Type} : List (String × α) → String → Option α
  | [], _ => none
  | (k, v) :: rest, key => if k = key then some v else alookup rest key

/-- Python str.split with a one-character separator: accumulator pass
over the character list. -/
def splitAux (c : Char) : List Char → List Char → List String
  | [], acc => [String.mk acc.reverse]
  | x :: xs, acc =>
      if x = c then String.mk acc.reverse :: splitAux c xs []
      else splitAux c xs (x :: acc)

/-- Python s.split with separator given by a character. -/
def splitChar (c : Char) (s : String) : List String := splitAux c s.data []

/-- Python s[:-n] : drop the last n characters (empty when n exceeds the
length), as used for the system key file["title"][:-13]. -/
def strDropLast (s : String) (n : Nat) : String :=
  String.mk (s.data.take (s.data.length - n))

/-- SystemDescriptor: the hardware and software sub-dicts the code reads
from file["systems"][key]. -/
structure SystemDescriptor where
  hardware : List (String × String)
  software : List (String × String)
deriving DecidableEq

/-- One entry of file["results"].values(). The fields the code reads
unconditionally (title, description, scale) are plain strings; fields
whose absence the claims exercise are optional. -/
structure ResultEntry where
  title : String
  description : String
  scale : String
  app_version : Option String
  identifier : Option String
  results : List (String × List (String × JVal))
deriving DecidableEq

/-- One parsed input file, with the top-level fields the code reads. -/
structure ResultDocument where
  title : String
  last_modified : String
  results : List ResultEntry
  systems : List (String × SystemDescriptor)
deriving DecidableEq

/-- The flat 18-column row inserted into a test table. -/
structure Row where
  key : String
  board_type : String
  boot_type : String
  release : String
  config : String
  last_modified : String
  processor : String
  memory : String
  disk : String
  graphics : String
  network : String
  os : String
  kernel : String
  app_title : String
  app_version : String
  test_description : String
  unit : String
  value : JVal
deriving DecidableEq

/-- The Python exceptions the data path can raise. -/
inductive PyError where
  | keyError (k : String)
  | indexError
  | jsonDecodeError
deriving DecidableEq

instance {α β : Type} [DecidableEq α] [DecidableEq β] :
    DecidableEq (Except α β) := fun x y =>
  match x, y with
  | .error a, .error b =>
      if h : a = b then isTrue (by rw [h])
      else isFalse (by intro hc; injection hc with h2; exact h h2)
  | .ok a, .ok b =>
      if h : a = b then isTrue (by rw [h])
      else isFalse (by intro hc; injection hc with h2; exact h h2)
  | .error _, .ok _ => isFalse (by intro hc; cases hc)
  | .ok _, .error _ => isFalse (by intro hc; cases hc)

/-- Explicit Except bind for PyError computations (exception
propagation). -/
def exBind {α β : Type} (x : Except PyError α) (f : α → Except PyError β) :
    Except PyError β :=
  match x with
  | .error er => .error er
  | .ok a => f a

/-- Python positive list indexing l[i]: IndexError when out of range. -/
def idx (l : List String) (i : Nat) : Except PyError String :=
  match l.get? i with
  | some s => .ok s
  | none => .error .indexError

/-- Python dict subscription m[k]: KeyError when the key is absent. -/
def keyLookup {α : Type} (m : List (String × α)) (k : String) :
    Except PyError α :=
  match alookup m k with
  | some v => .ok v
  | none => .error (.keyError k)

/-- The system key file["title"][:-13]. -/
def sysKey (d : ResultDocument) : String := strDropLast d.title 13

/-- The list l = file["title"].split("-") of process_parsed_data. -/
def titleParts (d : ResultDocument) : List String := splitChar '-' d.title

/-- The table name l[0]; split always returns a nonempty list, matching
the always-safe l[0] subscription in the code. -/
def tableName (d : ResultDocument) : String := (titleParts d).headD ""

/-- The nested per-system result result["results"].get(key, {}). -/
def nestedResult (d : ResultDocument) (e : ResultEntry) :
    List (String × JVal) :=
  (alookup e.results (sysKey d)).getD []

/-- Lines 111-114: app_version from the entry itself for every family
except perfbench, which takes the last hyphen segment of identifier. -/
def resolveAppVersion (table : String) (e : ResultEntry) :
    Except PyError String :=
  if table ≠ "perfbench" then
    match e.app_version with
    | some v => .ok v
    | none => .error (.keyError "app_version")
  else
    match e.identifier with
    | some i => .ok ((splitChar '-' i).getLastD "")
    | none => .error (.keyError "identifier")

/-- Assembling the values tuple of lines 111-135 for one entry, in the
evaluation order of the Python source: app_version branch first, then
the title slices l[1]..l[5], then the systems lookups, the value last. -/
def buildRow (d : ResultDocument) (l : List String) (table : String)
    (e : ResultEntry) : Except PyError Row :=
  exBind (resolveAppVersion table e) fun appv =>
  exBind (idx l 1) fun b1 =>
  exBind (idx l 2) fun b2 =>
  exBind (idx l 3) fun boot =>
  exBind (idx l 4) fun rel =>
  exBind (idx l 5) fun cfg =>
  exBind (keyLookup d.systems (sysKey d)) fun sys =>
  exBind (keyLookup sys.hardware "Processor") fun hproc =>
  exBind (keyLookup sys.hardware "Memory") fun hmem =>
  exBind (keyLookup sys.hardware "Disk") fun hdisk =>
  exBind (keyLookup sys.hardware "Graphics") fun hgfx =>
  exBind (keyLookup sys.hardware "Network") fun hnet =>
  exBind (keyLookup sys.software "OS") fun sos =>
  exBind (keyLookup sys.software "Kernel") fun sker =>
  exBind (keyLookup (nestedResult d e) "value") fun v =>
  Except.ok
    { key := d.title
      board_type := b1 ++ "-" ++ b2
      boot_type := boot
      release := rel
      config := cfg
      last_modified := d.last_modified
      processor := hproc
      memory := hmem
      disk := hdisk
      graphics := hgfx
      network := hnet
      os := sos
      kernel := sker
      app_title := e.title
      app_version := appv
      test_description := e.description
      unit := e.scale
      value := v }

/-- Lines 107-136 for a single entry: the membership guard of line 108
(continue when the value key is absent, yielding no row), then the row
assembly; any exception propagates. -/
def processEntry (d : ResultDocument) (l : List String) (table : String)
    (e : ResultEntry) : Except PyError (Option Row) :=
  if (alookup (nestedResult d e) "value").isNone then Except.ok none
  else
    match buildRow d l table e with
    | .ok r => .ok (some r)
    | .error er => .error er

/-- The per-test tables: table name mapped to its rows in insertion
order. -/
abbrev Tables := List (String × List Row)

/-- CREATE TABLE IF NOT EXISTS with the fixed 18-column schema. -/
def create_testresult_table (ts : Tables) (name : String) : Tables :=
  if (alookup ts name).isSome then ts else ts ++ [(name, [])]

/-- INSERT of one values tuple into the named table. -/
def insert_into_testresult_table (ts : Tables) (name : String) (r : Row) :
    Tables :=
  ts.map (fun p => if p.1 = name then (p.1, p.2 ++ [r]) else p)

/-- The inner for-loop of process_parsed_data over
file["results"].values(); the first exception aborts the loop. -/
def processEntries (d : ResultDocument) (l : List String) (table : String) :
    Tables → List ResultEntry → Tables × Option PyError
  | ts, [] => (ts, none)
  | ts, e :: rest =>
      match processEntry d l table e with
      | .error er => (ts, some er)
      | .ok none => processEntries d l table ts rest
      | .ok (some r) =>
          processEntries d l table (insert_into_testresult_table ts table r) rest

/-- Lines 101-136 for one document: split the title, create the table,
then walk the entries. -/
def processDoc (ts : Tables) (d : ResultDocument) : Tables × Option PyError :=
  processEntries d (titleParts d) (tableName d)
    (create_testresult_table ts (tableName d)) d.results

/-- process_parsed_data over the whole batch: an exception raised for
one document propagates and stops the remaining documents. -/
def process_parsed_data (ts : Tables) :
    List ResultDocument → Tables × Option PyError
  | [] => (ts, none)
  | d :: rest =>
      match processDoc ts d with
      | (ts1, some er) => (ts1, some er)
      | (ts1, none) => process_parsed_data ts1 rest

/-- Contents of one named input file: either malformed JSON (json.load
raises) or a parsed document. -/
inductive FileContent where
  | malformed
  | doc (d : ResultDocument)
deriving DecidableEq

/-- The SELECT EXISTS query on parsed_files. -/
abbrev check_file_already_parsed (ledger : List String) (n : String) : Prop :=
  n ∈ ledger

/-- INSERT of the file name into parsed_files. -/
def log_parsed_file (ledger : List String) (n : String) : List String :=
  ledger ++ [n]

/-- parse_files (lines 46-58): skip files already in the ledger,
otherwise parse, collect the document, record the name and commit.
A json.load failure propagates immediately: the documents collected so
far are lost, while the ledger entries committed so far remain. -/
def parse_files (ledger : List String) :
    List (String × FileContent) →
      List String × Except PyError (List ResultDocument)
  | [] => (ledger, .ok [])
  | (n, c) :: rest =>
      if check_file_already_parsed ledger n then parse_files ledger rest
      else
        match c with
        | .malformed => (ledger, .error .jsonDecodeError)
        | .doc d =>
            match parse_files (log_parsed_file ledger n) rest with
            | (led, .ok docs) => (led, .ok (d :: docs))
            | (led, .error er) => (led, .error er)

/-- Committed database state: the parsed_files ledger and the test
tables. -/
structure DB where
  ledger : List String
  tables : Tables
deriving DecidableEq

/-- Commit logic of main once the parse phase has finished: on a parse
exception nothing after the per-file ledger commits survives; otherwise
the processing transaction is committed only when no exception escaped
process_parsed_data. -/
def runPipelineAux (db : DB)
    (pr : List String × Except PyError (List ResultDocument)) :
    DB × Option PyError :=
  match pr with
  | (led, .error er) => ({ ledger := led, tables := db.tables }, some er)
  | (led, .ok docs) =>
      match process_parsed_data db.tables docs with
      | (tb, none) => ({ ledger := led, tables := tb }, none)
      | (_, some er) => ({ ledger := led, tables := db.tables }, some er)

/-- The try-block of main over a directory listing: parse_files commits
the ledger per file; process_parsed_data runs in one transaction that is
committed only on success, so an exception escaping it leaves the tables
as they were while the ledger keeps the entries already committed. -/
def runPipeline (db : DB) (files : List (String × FileContent)) :
    DB × Option PyError :=
  runPipelineAux db (parse_files db.ledger files)

/-- A fully populated system descriptor used by the concrete fixtures. -/
def sysOk : SystemDescriptor :=
  { hardware :=
      [("Processor", "p"), ("Memory", "m"), ("Disk", "dk"),
       ("Graphics", "g"), ("Network", "n")]
    software := [("OS", "o"), ("Kernel", "k")] }

/-- An entry carrying a numeric value for the empty system key. -/
def entryGood : ResultEntry :=
  { title := "t1", description := "de", scale := "MB"
    app_version := some "2.0", identifier := none
    results := [("", [("value", .num 7)])] }

/-- An entry with no value field for any system key. -/
def entryNoVal : ResultEntry :=
  { title := "t2", description := "de2", scale := "MB"
    app_version := some "2.0", identifier := none
    results := [("", [("other", .num 1)])] }

/-- A well-formed document of family x whose title has 11 characters, so
its system key (title minus the last 13 characters) is empty. -/
def docGood : ResultDocument :=
  { title := "x-b-c-d-e-f", last_modified := "2024"
    results := [entryGood, entryNoVal], systems := [("", sysOk)] }

/-- The single row docGood produces. -/
def rowGood : Row :=
  { key := "x-b-c-d-e-f", board_type := "b-c", boot_type := "d"
    release := "e", config := "f", last_modified := "2024"
    processor := "p", memory := "m", disk := "dk", graphics := "g"
    network := "n", os := "o", kernel := "k", app_title := "t1"
    app_version := "2.0", test_description := "de", unit := "MB"
    value := .num 7 }

/-- An entry carrying a value for system key t-b1. -/
def entryBadSys : ResultEntry :=
  { title := "e1", description := "d1", scale := "u1"
    app_version := some "1.0", identifier := none
    results := [("t-b1", [("value", .num 5)])] }

/-- A document with a valued entry whose systems mapping lacks the
computed system key t-b1 (its title has 17 characters). -/
def docBadSys : ResultDocument :=
  { title := "t-b1-b2-bt-rl-cfg", last_modified := "2024"
    results := [entryBadSys]
    systems := [] }

/-- An entry whose value field holds a string, not a number. -/
def entryStrVal : ResultEntry :=
  { title := "t1", description := "de", scale := "MB"
    app_version := some "2.0", identifier := none
    results := [("", [("value", .str "NaN")])] }

/-- A document like docGood but whose value field holds a string, not a
number. -/
def docStrVal : ResultDocument :=
  { title := "y-b-c-d-e-f", last_modified := "2024"
    results := [entryStrVal]
    systems := [("", sysOk)] }

/-- The row docStrVal produces, with a non-numeric value slot. -/
def rowStrVal : Row :=
  { key := "y-b-c-d-e-f", board_type := "b-c", boot_type := "d"
    release := "e", config := "f", last_modified := "2024"
    processor := "p", memory := "m", disk := "dk", graphics := "g"
    network := "n", os := "o", kernel := "k", app_title := "t1"
    app_version := "2.0", test_description := "de", unit := "MB"
    value := .str "NaN" }

/-- An entry carrying a value for the empty system key, used with short
titles. -/
def entryShortVal : ResultEntry :=
  { title := "e1", description := "d1", scale := "u1"
    app_version := some "9", identifier := none
    results := [("", [("value", .num 1)])] }

/-- A document whose title splits into only two parts but which has a
valued entry, so row assembly is reached. -/
def docShortVal : ResultDocument :=
  { title := "s-b", last_modified := "2024"
    results := [entryShortVal]
    systems := [] }

/-- A document whose title splits into only two parts and none of whose
entries carries a value for the system key. -/
def docShortNoVal : ResultDocument :=
  { title := "a-b", last_modified := "2024"
    results :=
      [{ title := "e1", description := "d1", scale := "u1"
         app_version := some "9", identifier := none
         results := [] }]
    systems := [] }

/-- A perfbench entry: no app_version, the version is hidden in the
last hyphen segment of identifier. -/
def entryPerf : ResultEntry :=
  { title := "t1", description := "de", scale := "MB"
    app_version := none, identifier := some "app-x-3.14"
    results := [("perfbench-b-c-d-e-fGGGGG", [("value", .num 9)])] }

/-- A perfbench document: family name perfbench, title of 6 parts, and
system key perfbench-b-c-d-e-fGGGGG after dropping the 13 trailing X. -/
def docPerf : ResultDocument :=
  { title := "perfbench-b-c-d-e-fGGGGGXXXXXXXXXXXXX", last_modified := "2024"
    results := [entryPerf]
    systems := [("perfbench-b-c-d-e-fGGGGG", sysOk)] }

/-- The row docPerf produces: app_version 3.14 extracted from the
identifier. -/
def rowPerf : Row :=
  { key := "perfbench-b-c-d-e-fGGGGGXXXXXXXXXXXXX", board_type := "b-c"
    boot_type := "d", release := "e", config := "fGGGGGXXXXXXXXXXXXX"
    last_modified := "2024", processor := "p", memory := "m", disk := "dk"
    graphics := "g", network := "n", os := "o", kernel := "k"
    app_title := "t1", app_version := "3.14", test_description := "de"
    unit := "MB", value := .num 9 }

/-- A document of family w with one entry that has a nested result for
the system key but no value field in it. -/
def docNoVal : ResultDocument :=
  { title := "w-b-c-d-e-f", last_modified := "2024"
    results := [entryNoVal]
    systems := [("", sysOk)] }

/-- A two-part title together with an entry whose nested result for the
system key is an empty object. -/
def docTen : ResultDocument :=
  { title := "u-v", last_modified := "2024"
    results :=
      [{ title := "e", description := "d", scale := "s"
         app_version := none, identifier := none
         results := [("", [])] }]
    systems := [] }

/-! ### Helper lemmas -/

lemma exBind_ok {α β : Type} (x : Except PyError α) (f : α → Except PyError β)
    (b : β) :
    exBind x f = Except.ok b ↔ ∃ a, x = Except.ok a ∧ f a = Except.ok b := by
  cases x <;> simp [exBind]

lemma idx_ok {l : List String} {i : Nat} {s : String} :
    idx l i = Except.ok s ↔ l.get? i = some s := by
  unfold idx
  cases h : l.get? i <;> simp

lemma keyLookup_ok {α : Type} {m : List (String × α)} {k : String} {v : α} :
    keyLookup m k = Except.ok v ↔ alookup m k = some v := by
  unfold keyLookup
  cases h : alookup m k <;> simp

lemma keyLookup_none {α : Type} {m : List (String × α)} {k : String}
    (h : alookup m k = none) :
    keyLookup m k = Except.error (.keyError k) := by
  unfold keyLookup
  rw [h]

lemma idx_none {l : List String} {i : Nat} (h : l.get? i = none) :
    idx l i = Except.error .indexError := by
  unfold idx
  rw [h]

lemma idx_some {l : List String} {i : Nat} {s : String}
    (h : l.get? i = some s) : idx l i = Except.ok s := by
  unfold idx
  rw [h]

lemma get?_some_lt {α : Type} {l : List α} {n : Nat} {a : α}
    (h : l.get? n = some a) : n < l.length := by
  by_contra hn
  push_neg at hn
  rw [List.get?_eq_none.mpr hn] at h
  cases h

/-- Everything a successful row assembly pins down: the app_version
obligation succeeded with the value stored in the row, the title has at
least six hyphen-separated parts, and the title-derived columns are the
slices l[1]..l[5]. -/
lemma buildRow_ok {d : ResultDocument} {l : List String} {table : String}
    {e : ResultEntry} {r : Row} (h : buildRow d l table e = Except.ok r) :
    resolveAppVersion table e = Except.ok r.app_version ∧
    5 < l.length ∧
    r.key = d.title ∧
    r.board_type = (l.get? 1).getD "" ++ "-" ++ (l.get? 2).getD "" ∧
    r.boot_type = (l.get? 3).getD "" ∧
    r.release = (l.get? 4).getD "" ∧
    r.config = (l.get? 5).getD "" := by
  unfold buildRow at h
  rw [exBind_ok] at h
  obtain ⟨appv, happ, h⟩ := h
  rw [exBind_ok] at h
  obtain ⟨b1, hb1, h⟩ := h
  rw [exBind_ok] at h
  obtain ⟨b2, hb2, h⟩ := h
  rw [exBind_ok] at h
  obtain ⟨boot, hb3, h⟩ := h
  rw [exBind_ok] at h
  obtain ⟨rel, hb4, h⟩ := h
  rw [exBind_ok] at h
  obtain ⟨cfg, hb5, h⟩ := h
  rw [exBind_ok] at h
  obtain ⟨sys, hsys, h⟩ := h
  rw [exBind_ok] at h
  obtain ⟨hproc, hh1, h⟩ := h
  rw [exBind_ok] at h
  obtain ⟨hmem, hh2, h⟩ := h
  rw [exBind_ok] at h
  obtain ⟨hdisk, hh3, h⟩ := h
  rw [exBind_ok] at h
  obtain ⟨hgfx, hh4, h⟩ := h
  rw [exBind_ok] at h
  obtain ⟨hnet, hh5, h⟩ := h
  rw [exBind_ok] at h
  obtain ⟨sos, hh6, h⟩ := h
  rw [exBind_ok] at h
  obtain ⟨sker, hh7, h⟩ := h
  rw [exBind_ok] at h
  obtain ⟨v, hv, h⟩ := h
  injection h with h
  subst h
  rw [idx_ok] at hb1 hb2 hb3 hb4 hb5
  refine ⟨happ, get?_some_lt hb5, rfl, ?_, ?_, ?_, ?_⟩ <;>
    simp only [hb1, hb2, hb3, hb4, hb5, Option.getD_some]

/-- The membership guard of line 108: an entry is silently skipped
exactly when the value key is absent from its nested per-system
result. -/
lemma processEntry_eq_ok_none_iff {d : ResultDocument} {l : List String}
    {table : String} {e : ResultEntry} :
    processEntry d l table e = Except.ok none ↔
      alookup (nestedResult d e) "value" = none := by
  unfold processEntry
  cases h : alookup (nestedResult d e) "value" with
  | none => simp [h]
  | some v =>
      simp only [h, Option.isNone_some, Bool.false_eq_true, if_false]
      cases hb : buildRow d l table e <;> simp

lemma processEntry_ok_some {d : ResultDocument} {l : List String}
    {table : String} {e : ResultEntry} {r : Row}
    (h : processEntry d l table e = Except.ok (some r)) :
    buildRow d l table e = Except.ok r := by
  unfold processEntry at h
  cases hg : alookup (nestedResult d e) "value" with
  | none => rw [hg] at h; simp at h
  | some v =>
      rw [hg] at h
      simp only [Option.isNone_some, Bool.false_eq_true, if_false] at h
      cases hb : buildRow d l table e with
      | ok r2 => rw [hb] at h; simp at h; rw [h]
      | error er => rw [hb] at h; cases h

/-- A batch of entries none of which carries a value is walked without
effect and without error. -/
lemma processEntries_skip {d : ResultDocument} {l : List String}
    {table : String} :
    ∀ (entries : List ResultEntry) (ts : Tables),
      (∀ e ∈ entries, alookup (nestedResult d e) "value" = none) →
      processEntries d l table ts entries = (ts, none)
  | [], _, _ => rfl
  | e :: rest, ts, h => by
      have he : processEntry d l table e = Except.ok none :=
        processEntry_eq_ok_none_iff.mpr (h e (by simp))
      unfold processEntries
      rw [he]
      exact processEntries_skip rest ts (fun e2 hm => h e2 (by simp [hm]))

lemma alookup_append_none {α : Type} :
    ∀ (ts : List (String × α)) (n : String) (v : α),
      alookup ts n = none → alookup (ts ++ [(n, v)]) n = some v
  | [], n, v, _ => by simp [alookup]
  | (k, w) :: rest, n, v, h => by
      rw [List.cons_append]
      simp only [alookup] at h ⊢
      by_cases hk : k = n
      · rw [if_pos hk] at h; cases h
      · rw [if_neg hk] at h ⊢
        exact alookup_append_none rest n v h

/-- CREATE TABLE IF NOT EXISTS leaves the named table present. -/
lemma alookup_create (ts : Tables) (n : String) :
    (alookup (create_testresult_table ts n) n).isSome := by
  unfold create_testresult_table
  cases h : alookup ts n with
  | none => simp [h, alookup_append_none ts n [] h]
  | some rows => simp [h]

/-- CREATE TABLE IF NOT EXISTS creates the table empty when absent. -/
lemma alookup_create_absent {ts : Tables} {n : String}
    (h : alookup ts n = none) :
    alookup (create_testresult_table ts n) n = some [] := by
  unfold create_testresult_table
  rw [h]
  simpa using alookup_append_none ts n [] h

/-- When the title has fewer than six hyphen-separated parts and the
app_version step succeeded, the tuple assembly stops at one of the
slices l[1]..l[5] with an IndexError. -/
lemma buildRow_short {d : ResultDocument} {l : List String} {table : String}
    {e : ResultEntry} {a : String}
    (ha : resolveAppVersion table e = Except.ok a) (hl : l.length < 6) :
    buildRow d l table e = Except.error .indexError := by
  have h5 : l.get? 5 = none := List.get?_eq_none.mpr (by omega)
  unfold buildRow
  rw [ha]
  simp only [exBind]
  cases h1 : l.get? 1 with
  | none => rw [idx_none h1]
  | some s1 =>
      rw [idx_some h1]
      cases h2 : l.get? 2 with
      | none => rw [idx_none h2]
      | some s2 =>
          rw [idx_some h2]
          cases h3 : l.get? 3 with
          | none => rw [idx_none h3]
          | some s3 =>
              rw [idx_some h3]
              cases h4 : l.get? 4 with
              | none => rw [idx_none h4]
              | some s4 => rw [idx_some h4, idx_none h5]

/-- When the systems mapping lacks the computed system key, the tuple
assembly fails with a KeyError on that key, provided the earlier steps
(app_version, the five title slices) went through. -/
lemma buildRow_no_sys {d : ResultDocument} {l : List String} {table : String}
    {e : ResultEntry} {a : String}
    (ha : resolveAppVersion table e = Except.ok a) (hl : 6 ≤ l.length)
    (hs : alookup d.systems (sysKey d) = none) :
    buildRow d l table e = Except.error (.keyError (sysKey d)) := by
  have h1 : l.get? 1 = some (l.get ⟨1, by omega⟩) := List.get?_eq_get (by omega)
  have h2 : l.get? 2 = some (l.get ⟨2, by omega⟩) := List.get?_eq_get (by omega)
  have h3 : l.get? 3 = some (l.get ⟨3, by omega⟩) := List.get?_eq_get (by omega)
  have h4 : l.get? 4 = some (l.get ⟨4, by omega⟩) := List.get?_eq_get (by omega)
  have h5 : l.get? 5 = some (l.get ⟨5, by omega⟩) := List.get?_eq_get (by omega)
  unfold buildRow
  rw [ha]
  simp only [exBind]
  rw [idx_some h1, idx_some h2, idx_some h3, idx_some h4, idx_some h5,
    keyLookup_none hs]

/-- Definitional unfolding of parse_files on a nonempty directory
listing. -/
lemma parse_files_cons (ledger : List String) (n : String) (c : FileContent)
    (rest : List (String × FileContent)) :
    parse_files ledger ((n, c) :: rest) =
      if check_file_already_parsed ledger n then parse_files ledger rest
      else
        match c with
        | .malformed => (ledger, .error .jsonDecodeError)
        | .doc d =>
            match parse_files (log_parsed_file ledger n) rest with
            | (led, .ok docs) => (led, .ok (d :: docs))
            | (led, .error er) => (led, .error er) := rfl

/-- Once in the ledger, always in the ledger: parse_files only appends
file names. -/
lemma parse_files_mono :
    ∀ (files : List (String × FileContent)) (ledger : List String)
      (n : String), n ∈ ledger → n ∈ (parse_files ledger files).1
  | [], _, _, h => h
  | (m, c) :: rest, ledger, n, h => by
      rw [parse_files_cons]
      by_cases hm : check_file_already_parsed ledger m
      · rw [if_pos hm]
        exact parse_files_mono rest ledger n h
      · rw [if_neg hm]
        cases c with
        | malformed => exact h
        | doc d =>
            have hmem : n ∈ log_parsed_file ledger m :=
              List.mem_append_left _ h
            have ih := parse_files_mono rest (log_parsed_file ledger m) n hmem
            cases hp : parse_files (log_parsed_file ledger m) rest with
            | mk led res =>
                rw [hp] at ih
                cases res with
                | ok docs => exact ih
                | error er => exact ih

/-- A file whose name is already in the ledger is skipped: the run over
a directory containing it equals the run over the directory without
it. -/
lemma parse_files_skip :
    ∀ (pre : List (String × FileContent)) (ledger : List String)
      (n : String) (c : FileContent) (post : List (String × FileContent)),
      n ∈ ledger →
      parse_files ledger (pre ++ (n, c) :: post) =
        parse_files ledger (pre ++ post)
  | [], ledger, n, c, post, h => by
      rw [List.nil_append, List.nil_append]
      have hn : check_file_already_parsed ledger n := h
      rw [parse_files_cons, if_pos hn]
  | (m, c2) :: pre, ledger, n, c, post, h => by
      rw [List.cons_append, List.cons_append]
      by_cases hm : check_file_already_parsed ledger m
      · rw [parse_files_cons, parse_files_cons, if_pos hm, if_pos hm]
        exact parse_files_skip pre ledger n c post h
      · rw [parse_files_cons, parse_files_cons, if_neg hm, if_neg hm]
        cases c2 with
        | malformed => rfl
        | doc d =>
            rw [parse_files_skip pre (log_parsed_file ledger m) n c post
              (List.mem_append_left _ h)]

/-- After a run of parse_files that returned successfully, every file
name of the directory is in the resulting ledger. -/
lemma parse_files_records :
    ∀ (files : List (String × FileContent)) (ledger led : List String)
      (docs : List ResultDocument),
      parse_files ledger files = (led, Except.ok docs) →
      ∀ n c, (n, c) ∈ files → n ∈ led
  | [], _, _, _, h, n, c, hmem => absurd hmem (List.not_mem_nil _)
  | (m, c2) :: rest, ledger, led, docs, h, n, c, hmem => by
      rw [parse_files_cons] at h
      by_cases hm : check_file_already_parsed ledger m
      · rw [if_pos hm] at h
        rcases List.mem_cons.mp hmem with heq | htail
        · injection heq with hnm hc
          rw [hnm]
          have hmono := parse_files_mono rest ledger m hm
          rw [h] at hmono
          exact hmono
        · exact parse_files_records rest ledger led docs h n c htail
      · rw [if_neg hm] at h
        cases c2 with
        | malformed => simp at h
        | doc d =>
            cases hp : parse_files (log_parsed_file ledger m) rest with
            | mk led2 res =>
                rw [hp] at h
                cases res with
                | error er => simp at h
                | ok docs2 =>
                    simp only [Prod.mk.injEq, Except.ok.injEq] at h
                    obtain ⟨hled, _⟩ := h
                    rcases List.mem_cons.mp hmem with heq | htail
                    · injection heq with hnm hc
                      rw [hnm]
                      have hmem2 : m ∈ log_parsed_file ledger m :=
                        List.mem_append_right _ (by simp)
                      have hmono :=
                        parse_files_mono rest (log_parsed_file ledger m) m hmem2
                      rw [hp] at hmono
                      exact hled ▸ hmono
                    · exact hled ▸ parse_files_records rest
                        (log_parsed_file ledger m) led2 docs2 hp n c htail

/-- A directory all of whose file names are already in the ledger is
fully skipped: no new documents, ledger unchanged. -/
lemma parse_files_all_skip :
    ∀ (files : List (String × FileContent)) (ledger : List String),
      (∀ n c, (n, c) ∈ files → n ∈ ledger) →
      parse_files ledger files = (ledger, Except.ok [])
  | [], _, _ => rfl
  | (m, c2) :: rest, ledger, h => by
      have hm : check_file_already_parsed ledger m := h m c2 (by simp)
      rw [parse_files_cons, if_pos hm]
      exact parse_files_all_skip rest ledger
        (fun n c hmem => h n c (by simp [hmem]))

/-- Unfolding runPipeline once the parse phase result is known. -/
lemma runPipeline_eq (db : DB) (files : List (String × FileContent))
    (led : List String) (res : Except PyError (List ResultDocument))
    (h : parse_files db.ledger files = (led, res)) :
    runPipeline db files = runPipelineAux db (led, res) := by
  unfold runPipeline
  rw [h]

lemma runPipelineAux_error (db : DB) (led : List String) (er : PyError) :
    runPipelineAux db (led, .error er) =
      ({ ledger := led, tables := db.tables }, some er) := rfl

lemma runPipelineAux_ok (db : DB) (led : List String)
    (docs : List ResultDocument) :
    runPipelineAux db (led, .ok docs) =
      match process_parsed_data db.tables docs with
      | (tb, none) => ({ ledger := led, tables := tb }, none)
      | (_, some er) => ({ ledger := led, tables := db.tables }, some er) :=
  rfl

lemma process_parsed_data_cons (ts : Tables) (d : ResultDocument)
    (rest : List ResultDocument) :
    process_parsed_data ts (d :: rest) =
      match processDoc ts d with
      | (ts1, some er) => (ts1, some er)
      | (ts1, none) => process_parsed_data ts1 rest := rfl

lemma runPipeline_parse_error {db : DB} {files : List (String × FileContent)}
    {led : List String} {er : PyError}
    (h : parse_files db.ledger files = (led, .error er)) :
    runPipeline db files = ({ ledger := led, tables := db.tables }, some er) :=
  runPipeline_eq db files led (.error er) h

lemma runPipeline_proc {db : DB} {files : List (String × FileContent)}
    {led : List String} {docs : List ResultDocument}
    (h : parse_files db.ledger files = (led, .ok docs)) :
    runPipeline db files =
      match process_parsed_data db.tables docs with
      | (tb, none) => ({ ledger := led, tables := tb }, none)
      | (_, some er) => ({ ledger := led, tables := db.tables }, some er) :=
  runPipeline_eq db files led (.ok docs) h

lemma runPipeline_ok {db : DB} {files : List (String × FileContent)}
    {led : List String} {docs : List ResultDocument} {tb : Tables}
    (h1 : parse_files db.ledger files = (led, .ok docs))
    (h2 : process_parsed_data db.tables docs = (tb, none)) :
    runPipeline db files = ({ ledger := led, tables := tb }, none) := by
  rw [runPipeline_proc h1, h2]

lemma runPipeline_proc_error {db : DB} {files : List (String × FileContent)}
    {led : List String} {docs : List ResultDocument} {tb : Tables}
    {er : PyError}
    (h1 : parse_files db.ledger files = (led, .ok docs))
    (h2 : process_parsed_data db.tables docs = (tb, some er)) :
    runPipeline db files =
      ({ ledger := led, tables := db.tables }, some er) := by
  rw [runPipeline_proc h1, h2]

/-! ### Claims -/

/-- Claim C5 (corrected): the guard of line 108 checks only that the
value key is PRESENT in the nested per-system result, not that it is
numeric: an entry is silently skipped (Except.ok none, no row and no
error) if and only if the value key is absent, and whenever a row is
emitted the value key was present, whatever type its content has. -/
theorem c5_theorem :
    (∀ (d : ResultDocument) (l : List String) (table : String)
      (e : ResultEntry),
      processEntry d l table e = Except.ok none ↔
        alookup (nestedResult d e) "value" = none) ∧
    (∀ (d : ResultDocument) (l : List String) (table : String)
      (e : ResultEntry) (r : Row),
      processEntry d l table e = Except.ok (some r) →
      (alookup (nestedResult d e) "value").isSome) := by
  constructor
  · intro d l table e
    exact processEntry_eq_ok_none_iff
  · intro d l table e r h
    cases hv : alookup (nestedResult d e) "value" with
    | some v => rfl
    | none =>
        rw [processEntry_eq_ok_none_iff.mpr hv] at h
        cases h

/-- Claim C5, witness: the string-valued document emits a row, and its
value key is present. -/
theorem c5_witness :
    (alookup (nestedResult docStrVal entryStrVal) "value").isSome :=
  c5_theorem.2 docStrVal (titleParts docStrVal) "y" entryStrVal rowStrVal
    (by decide)

/-- Claim C5, counterexample to the claim as stated: an entry whose
value field holds the string NaN rather than a number is not skipped;
a row carrying that string is inserted. -/
theorem c5_counterexample :
    alookup (nestedResult docStrVal entryStrVal) "value" =
        some (.str "NaN") ∧
      rowStrVal.value = JVal.str "NaN" ∧
      processDoc [] docStrVal = ([("y", [rowStrVal])], none) := by
  decide

/-- Claim C8 (confirmed): the family table is created before any entry
is examined, so a document none of whose entries carries a value for the
system key still creates its table (empty when it was absent) and
completes without error. -/
theorem c8_theorem :
    ∀ (ts : Tables) (d : ResultDocument),
      (∀ e ∈ d.results, alookup (nestedResult d e) "value" = none) →
      processDoc ts d = (create_testresult_table ts (tableName d), none) ∧
      (alookup (create_testresult_table ts (tableName d))
        (tableName d)).isSome ∧
      (alookup ts (tableName d) = none →
        alookup (create_testresult_table ts (tableName d)) (tableName d) =
          some []) := by
  intro ts d h
  refine ⟨?_, alookup_create ts (tableName d),
    fun hn => alookup_create_absent hn⟩
  unfold processDoc
  exact processEntries_skip d.results _ h

/-- Claim C8, witness at a concrete valueless document. -/
theorem c8_witness :
    processDoc [] docNoVal =
        (create_testresult_table [] (tableName docNoVal), none) ∧
      (alookup (create_testresult_table [] (tableName docNoVal))
        (tableName docNoVal)).isSome ∧
      (alookup ([] : Tables) (tableName docNoVal) = none →
        alookup (create_testresult_table [] (tableName docNoVal))
          (tableName docNoVal) = some []) :=
  c8_theorem [] docNoVal (by decide)

/-- Claim C9 (confirmed): when the nested results mapping of an entry
has no object at all for the system key, the dict get with default
makes the lookup fall back to an empty object, so the entry is skipped
silently exactly as when the value field is absent. -/
theorem c9_theorem :
    ∀ (d : ResultDocument) (l : List String) (table : String)
      (e : ResultEntry),
      alookup e.results (sysKey d) = none →
      processEntry d l table e = Except.ok none := by
  intro d l table e h
  have hn : nestedResult d e = [] := by
    unfold nestedResult
    rw [h]
    rfl
  apply processEntry_eq_ok_none_iff.mpr
  rw [hn]
  rfl

/-- Claim C9, witness: an entry whose results mapping has nothing for
system key t-b1 is skipped without error. -/
theorem c9_witness :
    processEntry docBadSys (titleParts docBadSys) "t" entryNoVal =
      Except.ok none :=
  c9_theorem docBadSys (titleParts docBadSys) "t" entryNoVal (by decide)

/-- Claim C10 (confirmed): a document whose title has fewer than six
hyphen-separated parts completes without error whenever none of its
entries carries a value for the system key, because the slices l[1] and
beyond are only evaluated while assembling a row. -/
theorem c10_theorem :
    ∀ (ts : Tables) (d : ResultDocument),
      (titleParts d).length < 6 →
      (∀ e ∈ d.results, alookup (nestedResult d e) "value" = none) →
      (processDoc ts d).2 = none := by
  intro ts d _ h
  unfold processDoc
  rw [processEntries_skip d.results _ h]

/-- Claim C10, witness: a two-part title with a valueless entry is
processed without error. -/
theorem c10_witness :
    (titleParts docTen).length < 6 ∧ (processDoc [] docTen).2 = none :=
  ⟨by decide, c10_theorem [] docTen (by decide) (by decide)⟩

/-- Claim C6 (confirmed): for every emitted row, when the first title
segment is perfbench the app_version column is the last hyphen segment
of the identifier field of the entry, and for any other family it is
the app_version field of the entry itself. -/
theorem c6_theorem :
    ∀ (d : ResultDocument) (e : ResultEntry) (r : Row),
      processEntry d (titleParts d) (tableName d) e = Except.ok (some r) →
      (tableName d = "perfbench" →
        ∃ i, e.identifier = some i ∧
          r.app_version = (splitChar '-' i).getLastD "") ∧
      (tableName d ≠ "perfbench" → e.app_version = some r.app_version) := by
  intro d e r h
  have hb := processEntry_ok_some h
  obtain ⟨happ, -, -, -, -, -, -⟩ := buildRow_ok hb
  constructor
  · intro hp
    rw [hp] at happ
    unfold resolveAppVersion at happ
    rw [if_neg (by simp)] at happ
    cases hi : e.identifier with
    | none => rw [hi] at happ; cases happ
    | some i =>
        rw [hi] at happ
        refine ⟨i, rfl, ?_⟩
        injection happ with h2
        exact h2.symm
  · intro hp
    unfold resolveAppVersion at happ
    rw [if_pos hp] at happ
    cases ha : e.app_version with
    | none => rw [ha] at happ; cases happ
    | some v =>
        rw [ha] at happ
        injection happ with h2
        rw [h2]

/-- Claim C6, witness: the non-perfbench document uses the entry's own
app_version, and the perfbench document extracts 3.14 from the last
hyphen segment of identifier app-x-3.14. -/
theorem c6_witness :
    entryGood.app_version = some rowGood.app_version ∧
      ∃ i, entryPerf.identifier = some i ∧
        rowPerf.app_version = (splitChar '-' i).getLastD "" :=
  ⟨(c6_theorem docGood entryGood rowGood (by decide)).2 (by decide),
   (c6_theorem docPerf entryPerf rowPerf (by decide)).1 (by decide)⟩

/-- Claim C4 (corrected): there is no exact-count check and no
MalformedTitleError. Whenever a row is emitted the title has at least
six hyphen-separated parts (more are accepted, the extras ignored) and
the columns are part 0 as table key source, parts 1 and 2 joined with a
hyphen as board_type, and parts 3, 4, 5 as boot_type, release and
config; when the title has fewer than six parts the failure only occurs
during row assembly (an entry passed the value guard and the
app_version step) and is an IndexError. -/
theorem c4_theorem :
    (∀ (d : ResultDocument) (table : String) (e : ResultEntry) (r : Row),
      processEntry d (titleParts d) table e = Except.ok (some r) →
      6 ≤ (titleParts d).length ∧
      r.key = d.title ∧
      r.board_type = ((titleParts d).get? 1).getD "" ++ "-" ++
        ((titleParts d).get? 2).getD "" ∧
      r.boot_type = ((titleParts d).get? 3).getD "" ∧
      r.release = ((titleParts d).get? 4).getD "" ∧
      r.config = ((titleParts d).get? 5).getD "") ∧
    (∀ (d : ResultDocument) (l : List String) (table : String)
      (e : ResultEntry) (a : String),
      l.length < 6 →
      (alookup (nestedResult d e) "value").isSome →
      resolveAppVersion table e = Except.ok a →
      processEntry d l table e = Except.error .indexError) := by
  constructor
  · intro d table e r h
    have hb := processEntry_ok_some h
    obtain ⟨-, hlen, hkey, hbt, hboot, hrel, hcfg⟩ := buildRow_ok hb
    exact ⟨by omega, hkey, hbt, hboot, hrel, hcfg⟩
  · intro d l table e a hl hv ha
    obtain ⟨v, hv⟩ := Option.isSome_iff_exists.mp hv
    unfold processEntry
    rw [hv]
    simp only [Option.isNone_some, Bool.false_eq_true, if_false]
    rw [buildRow_short ha hl]

/-- Claim C4, witness: the six-part document maps its title slices into
the row columns, and the two-part document with a valued entry fails
with an IndexError. -/
theorem c4_witness :
    (6 ≤ (titleParts docGood).length ∧
      rowGood.key = docGood.title ∧
      rowGood.board_type = ((titleParts docGood).get? 1).getD "" ++ "-" ++
        ((titleParts docGood).get? 2).getD "" ∧
      rowGood.boot_type = ((titleParts docGood).get? 3).getD "" ∧
      rowGood.release = ((titleParts docGood).get? 4).getD "" ∧
      rowGood.config = ((titleParts docGood).get? 5).getD "") ∧
    processEntry docShortVal (titleParts docShortVal) "s" entryShortVal =
      Except.error .indexError :=
  ⟨c4_theorem.1 docGood "x" entryGood rowGood (by decide),
   c4_theorem.2 docShortVal (titleParts docShortVal) "s" entryShortVal "9"
     (by decide) (by decide) (by decide)⟩

/-- Claim C4, counterexample to the claim as stated: a document whose
title splits into only two parts is processed to completion with no
error of any kind when no entry passes the value guard, so fewer than
six parts does not imply a failure. -/
theorem c4_counterexample :
    (titleParts docShortNoVal).length < 6 ∧
      processDoc [] docShortNoVal = ([("a", [])], none) := by
  decide

/-- Claim C2 (corrected): a document whose systems mapping lacks the
computed system key fails with a Python KeyError on that key (there is
no IncompleteDocumentError), and the exception propagates: the document
is aborted AND no later document of the batch is processed, and at run
level the whole uncommitted transaction is discarded. -/
theorem c2_theorem :
    (∀ (ts ts1 : Tables) (d : ResultDocument) (rest : List ResultDocument)
      (er : PyError),
      processDoc ts d = (ts1, some er) →
      process_parsed_data ts (d :: rest) = (ts1, some er)) ∧
    (∀ (d : ResultDocument) (e : ResultEntry) (table a : String) (v : JVal),
      alookup (nestedResult d e) "value" = some v →
      resolveAppVersion table e = Except.ok a →
      6 ≤ (titleParts d).length →
      alookup d.systems (sysKey d) = none →
      processEntry d (titleParts d) table e =
        Except.error (.keyError (sysKey d))) := by
  constructor
  · intro ts ts1 d rest er h
    rw [process_parsed_data_cons, h]
  · intro d e table a v hv ha hl hs
    unfold processEntry
    rw [hv]
    simp only [Option.isNone_some, Bool.false_eq_true, if_false]
    rw [buildRow_no_sys ha hl hs]

/-- Claim C2, witness: the bad-systems document aborts itself and the
good document behind it in the same batch, with a KeyError on the
missing system key. -/
theorem c2_witness :
    process_parsed_data [] [docBadSys, docGood] =
        ([("t", [])], some (.keyError "t-b1")) ∧
      processEntry docBadSys (titleParts docBadSys) "t" entryBadSys =
        Except.error (.keyError (sysKey docBadSys)) :=
  ⟨c2_theorem.1 [] [("t", [])] docBadSys [docGood] (.keyError "t-b1")
     (by decide),
   c2_theorem.2 docBadSys entryBadSys "t" "1.0" (.num 5) (by decide)
     (by decide) (by decide) (by decide)⟩

/-- Claim C2, counterexample to the claim as stated: in a batch holding
the bad-systems document followed by a fully valid document, the run
ends with a KeyError and the valid document's rows are NOT inserted
(the committed tables are empty), while both files are ledgered. -/
theorem c2_counterexample :
    runPipeline ⟨[], []⟩ [("fb", .doc docBadSys), ("fg", .doc docGood)] =
      (⟨["fb", "fg"], []⟩, some (.keyError "t-b1")) := by
  decide

/-- Claim C1 (corrected): the Ledger is advanced by the parse phase
alone. The final ledger of a run equals the ledger produced by
parse_files before any extraction or loading happens, and a file that
parses successfully is ledgered no matter how processing of its rows
later ends, so a failed extraction or insertion is not retried on the
next run. -/
theorem c1_theorem :
    (∀ (db : DB) (files : List (String × FileContent)),
      (runPipeline db files).1.ledger = (parse_files db.ledger files).1) ∧
    (∀ (ledger : List String) (n : String) (d : ResultDocument)
      (rest : List (String × FileContent)),
      n ∉ ledger → n ∈ (parse_files ledger ((n, .doc d) :: rest)).1) := by
  constructor
  · intro db files
    cases hp : parse_files db.ledger files with
    | mk led res =>
        rw [runPipeline_eq db files led res hp]
        cases res with
        | error er => rfl
        | ok docs =>
            rw [runPipelineAux_ok]
            cases hq : process_parsed_data db.tables docs with
            | mk tb err => cases err <;> rfl
  · intro ledger n d rest h
    have hn : ¬ check_file_already_parsed ledger n := h
    rw [parse_files_cons, if_neg hn]
    have hmem : n ∈ log_parsed_file ledger n :=
      List.mem_append_right _ (by simp)
    have hmono := parse_files_mono rest (log_parsed_file ledger n) n hmem
    cases hp : parse_files (log_parsed_file ledger n) rest with
    | mk led res =>
        rw [hp] at hmono
        cases res with
        | ok docs => exact hmono
        | error er => exact hmono

/-- Claim C1, witness: a run over the bad-systems document alone fails
during processing, yet the final ledger equals the parse-phase ledger
and contains the file name. -/
theorem c1_witness :
    (runPipeline ⟨[], []⟩ [("f", .doc docBadSys)]).1.ledger =
        (parse_files [] [("f", .doc docBadSys)]).1 ∧
      "f" ∈ (parse_files [] [("f", .doc docBadSys)]).1 :=
  ⟨c1_theorem.1 ⟨[], []⟩ [("f", .doc docBadSys)],
   c1_theorem.2 [] "f" docBadSys [] (by decide)⟩

/-- Claim C1, counterexample to the claim as stated: processing the
bad-systems file fails (no rows are committed), yet its name IS
recorded in the Ledger, and a second run over the same directory skips
the file instead of retrying it. -/
theorem c1_counterexample :
    runPipeline ⟨[], []⟩ [("f", .doc docBadSys)] =
        (⟨["f"], []⟩, some (.keyError "t-b1")) ∧
      runPipeline ⟨["f"], []⟩ [("f", .doc docBadSys)] =
        (⟨["f"], []⟩, none) := by
  decide

/-- Claim C3 (corrected): a JSON parse failure on a file not yet in the
Ledger aborts the whole run at that point: the failing file stays
unrecorded (so it is retried next run), but the remaining files are not
parsed and nothing at all is processed, the run ending with the decode
error and the database unchanged. -/
theorem c3_theorem :
    ∀ (db : DB) (n : String) (rest : List (String × FileContent)),
      n ∉ db.ledger →
      runPipeline db ((n, .malformed) :: rest) =
        (db, some .jsonDecodeError) := by
  intro db n rest h
  have hn : ¬ check_file_already_parsed db.ledger n := h
  have hp : parse_files db.ledger ((n, .malformed) :: rest) =
      (db.ledger, .error .jsonDecodeError) := by
    rw [parse_files_cons, if_neg hn]
  exact runPipeline_eq db _ db.ledger (.error .jsonDecodeError) hp

/-- Claim C3, witness: a malformed file aborts the run even though a
perfectly valid file follows it in the directory. -/
theorem c3_witness :
    runPipeline ⟨[], []⟩ [("bad", .malformed), ("good", .doc docGood)] =
      (⟨[], []⟩, some .jsonDecodeError) :=
  c3_theorem ⟨[], []⟩ "bad" [("good", .doc docGood)] (by decide)

/-- Claim C3, counterexample to the claim as stated: the good file
alone produces a row and a ledger entry, but behind a malformed file it
produces nothing and is not ledgered, so parsing does not continue past
a parse failure. -/
theorem c3_counterexample :
    runPipeline ⟨[], []⟩ [("good", .doc docGood)] =
        (⟨["good"], [("x", [rowGood])]⟩, none) ∧
      runPipeline ⟨[], []⟩ [("bad", .malformed), ("good", .doc docGood)] =
        (⟨[], []⟩, some .jsonDecodeError) := by
  decide

/-- Claim C7 (confirmed): a file whose name is already in the Ledger
contributes nothing to a run (the run equals the run over the directory
without it), and a successful run is idempotent: running the pipeline
again over the same directory changes nothing and adds no rows. -/
theorem c7_theorem :
    (∀ (db : DB) (pre : List (String × FileContent)) (n : String)
      (c : FileContent) (post : List (String × FileContent)),
      n ∈ db.ledger →
      runPipeline db (pre ++ (n, c) :: post) = runPipeline db (pre ++ post)) ∧
    (∀ (db db1 : DB) (files : List (String × FileContent)),
      runPipeline db files = (db1, none) →
      runPipeline db1 files = (db1, none)) := by
  constructor
  · intro db pre n c post h
    unfold runPipeline
    rw [parse_files_skip pre db.ledger n c post h]
  · intro db db1 files h
    cases hp : parse_files db.ledger files with
    | mk led res =>
        rw [runPipeline_eq db files led res hp] at h
        cases res with
        | error er =>
            rw [runPipelineAux_error] at h
            simp at h
        | ok docs =>
            rw [runPipelineAux_ok] at h
            cases hq : process_parsed_data db.tables docs with
            | mk tb err =>
                rw [hq] at h
                cases err with
                | some er => simp at h
                | none =>
                    simp only [Prod.mk.injEq] at h
                    obtain ⟨hdb, -⟩ := h
                    subst hdb
                    have hall : ∀ n c, (n, c) ∈ files → n ∈ led :=
                      parse_files_records files db.ledger led docs hp
                    have hp2 : parse_files led files = (led, .ok []) :=
                      parse_files_all_skip files led hall
                    rw [runPipeline_eq ⟨led, tb⟩ files led (.ok []) hp2,
                      runPipelineAux_ok]
                    rfl

/-- Claim C7, witness: a ledgered file is skipped outright, and
re-running a completed run changes nothing. -/
theorem c7_witness :
    runPipeline ⟨["f"], []⟩ (("f", .doc docGood) :: []) =
        runPipeline ⟨["f"], []⟩ [] ∧
      runPipeline ⟨["good"], [("x", [rowGood])]⟩ [("good", .doc docGood)] =
        (⟨["good"], [("x", [rowGood])]⟩, none) :=
  ⟨c7_theorem.1 ⟨["f"], []⟩ [] "f" (.doc docGood) [] (by decide),
   c7_theorem.2 ⟨[], []⟩ ⟨["good"], [("x", [rowGood])]⟩
     [("good", .doc docGood)] (by decide)⟩

end BackendSQL
